import Mathlib

/-!
Verification development for the sky-computation backend
(`pythonbackend`: `star_service.py`, `main.py`, `iau.py`, `constellations.py`).

Python floats are embedded as exact rationals (for the list/filter/sort
pipeline, the sidereal-time arithmetic and the IAU point-in-polygon code,
which are all first-order arithmetic) or as real numbers (for the
trigonometric coordinate transforms and the magnitude formulas).
External collaborators (the star catalog JSON file, the IAU boundary JSON
file, and the skyfield ephemeris provider) are passed as explicit
parameters, mirroring the spec, which treats them as opaque inputs.
-/

/- ------------------------------------------------------------------ -/
/- Data model (star_service.CatalogStar and the result records)       -/
/- ------------------------------------------------------------------ -/

/-- Catalog star record (`star_service.CatalogStar`).  The optional
enrichment fields (distance_ly, color_temp_K, bv, rgb_hex, aliases, ids)
are pass-through data never consulted by the logic under verification and
are omitted from the embedding. -/
structure CatalogStar where
  name : String
  ra_hours : ℚ
  dec_deg : ℚ
  magnitude : ℚ
deriving DecidableEq

/-- One element of the list returned by `get_visible_stars`
(the dict with keys name, magnitude, altitude_deg, azimuth_deg). -/
structure VisibleStar where
  name : String
  magnitude : ℚ
  altitude_deg : ℚ
  azimuth_deg : ℚ
deriving DecidableEq

/-- Python float modulo (`x % m`), which for a positive modulus is
`x - m * floor (x / m)`. -/
def pymod (x m : ℚ) : ℚ := x - m * ⌊x / m⌋

/-- `star_service._normalize_hours`. -/
def _normalize_hours (hours : ℚ) : ℚ := pymod hours 24

/- ------------------------------------------------------------------ -/
/- Time: Julian date, GMST, LST (star_service lines 89-131)           -/
/- ------------------------------------------------------------------ -/

/-- A UTC instant already split into calendar fields, as
`_julian_date` reads them from a `datetime` (microseconds folded into
`second`). -/
structure UTCDatetime where
  year : ℤ
  month : ℤ
  day : ℤ
  hour : ℤ
  minute : ℤ
  second : ℚ
deriving DecidableEq

/-- Python `int()` on a float: truncation toward zero. -/
def pytrunc (q : ℚ) : ℤ := if q < 0 then -⌊-q⌋ else ⌊q⌋

/-- `star_service._julian_date` (Meeus).  Python `//` on nonnegative
operands is floor division, which is `Int./` (Euclidean division) for the
positive divisors 100 and 4. -/
def _julian_date (dt : UTCDatetime) : ℚ :=
  let year : ℤ := if dt.month ≤ 2 then dt.year - 1 else dt.year
  let month : ℤ := if dt.month ≤ 2 then dt.month + 12 else dt.month
  let A : ℤ := year / 100
  let B : ℤ := 2 - A + A / 4
  let day_fraction : ℚ := ((dt.hour : ℚ) + ((dt.minute : ℚ) + dt.second / 60) / 60) / 24
  (pytrunc (365.25 * ((year : ℚ) + 4716)) : ℚ)
    + (pytrunc (30.6001 * ((month : ℚ) + 1)) : ℚ)
    + (dt.day : ℚ) + (B : ℚ) - 1524.5 + day_fraction

/-- `star_service._gmst_hours`. -/
def _gmst_hours (dt : UTCDatetime) : ℚ :=
  _normalize_hours (18.697374558 + 24.06570982441908 * (_julian_date dt - 2451545.0))

/-- `star_service._lst_hours`. -/
def _lst_hours (longitude_deg : ℚ) (dt : UTCDatetime) : ℚ :=
  _normalize_hours (_gmst_hours dt + longitude_deg / 15)

/- ------------------------------------------------------------------ -/
/- get_visible_stars pipeline (star_service lines 533-601)            -/
/- ------------------------------------------------------------------ -/

/-- The result dict built for a star that passes the altitude filter.
`horiz` abstracts `_equatorial_to_horizontal` applied at the fixed
observer latitude and local sidereal time of the call, returning
(altitude_deg, azimuth_deg). -/
def starItem (horiz : CatalogStar → ℚ × ℚ) (s : CatalogStar) : VisibleStar :=
  { name := s.name
    magnitude := s.magnitude
    altitude_deg := (horiz s).1
    azimuth_deg := (horiz s).2 }

/-- The catalog loop of `get_visible_stars`: keep a star when its
computed altitude is `≥ minimum_altitude_deg`. -/
def visibleResults (horiz : CatalogStar → ℚ × ℚ) (catalog : List CatalogStar)
    (minimum_altitude_deg : ℚ) : List VisibleStar :=
  catalog.filterMap fun s =>
    if minimum_altitude_deg ≤ (horiz s).1 then some (starItem horiz s) else none

/-- The optional magnitude filter of `get_visible_stars`
(`magnitude ≤ max_magnitude` when given). -/
def applyMaxMagnitude (results : List VisibleStar) (max_magnitude : Option ℚ) :
    List VisibleStar :=
  match max_magnitude with
  | none => results
  | some m => results.filter fun r => r.magnitude ≤ m

/-- Sort key relation for `results.sort(key=magnitude)`. -/
def magLE (a b : VisibleStar) : Prop := a.magnitude ≤ b.magnitude

/-- Sort key relation for `results.sort(key=altitude, reverse=True)`. -/
def altGE (a b : VisibleStar) : Prop := b.altitude_deg ≤ a.altitude_deg

instance : DecidableRel magLE :=
  fun a b => inferInstanceAs (Decidable (a.magnitude ≤ b.magnitude))

instance : DecidableRel altGE :=
  fun a b => inferInstanceAs (Decidable (b.altitude_deg ≤ a.altitude_deg))

instance : IsTotal VisibleStar magLE := ⟨fun a b => le_total a.magnitude b.magnitude⟩

instance : IsTrans VisibleStar magLE := ⟨fun _ _ _ h h2 => le_trans h h2⟩

instance : IsTotal VisibleStar altGE := ⟨fun a b => le_total b.altitude_deg a.altitude_deg⟩

instance : IsTrans VisibleStar altGE := ⟨fun _ _ _ h h2 => le_trans h2 h⟩

/-- The sort step of `get_visible_stars`.  Python `list.sort` is a stable
sort; it is embedded as insertion sort, which is stable with ties kept in
input order, exactly like the source. -/
def sortResults (results : List VisibleStar) (sort_by_magnitude : Bool) :
    List VisibleStar :=
  if sort_by_magnitude then results.insertionSort magLE
  else results.insertionSort altGE

/-- The limit step shared by `get_visible_stars` (lines 598-599) and the
per-frame truncation of `get_visible_bodies_batch` (lines 527-528):
`if limit is not None and limit > 0: results = results[:limit]`. -/
def applyLimit {β : Type} (results : List β) (limit : Option ℤ) : List β :=
  match limit with
  | none => results
  | some n => if 0 < n then results.take n.toNat else results

/-- `star_service.get_visible_stars`, with the catalog and the horizontal
transform at the fixed observer/instant as explicit inputs. -/
def get_visible_stars (horiz : CatalogStar → ℚ × ℚ) (catalog : List CatalogStar)
    (minimum_altitude_deg : ℚ) (limit : Option ℤ) (sort_by_magnitude : Bool)
    (max_magnitude : Option ℚ) : List VisibleStar :=
  applyLimit
    (sortResults
      (applyMaxMagnitude (visibleResults horiz catalog minimum_altitude_deg) max_magnitude)
      sort_by_magnitude)
    limit

/- ------------------------------------------------------------------ -/
/- Batch helpers and events (star_service lines 357-530, main.py)     -/
/- ------------------------------------------------------------------ -/

/-- Number of instants yielded by the `while cur <= end_dt` loop of
`_iterate_datetimes_utc` for a positive step. -/
def iterateCount (start_dt end_dt step_hours : ℚ) : ℕ :=
  if start_dt ≤ end_dt then (⌊(end_dt - start_dt) / step_hours⌋).toNat + 1 else 0

/-- `star_service._iterate_datetimes_utc`: instants start, start+step, ...
while `cur ≤ end`; raises ValueError when `step_hours ≤ 0`.  Instants are
abstracted to rationals (hours on a common epoch); the loop is closed into
the explicit arithmetic progression it yields. -/
def _iterate_datetimes_utc (start_dt end_dt step_hours : ℚ) :
    Except String (List ℚ) :=
  if step_hours ≤ 0 then .error ("step_hours debe ser > 0")
  else .ok ((List.range (iterateCount start_dt end_dt step_hours)).map
    fun i => start_dt + (i : ℚ) * step_hours)

/-- One frame of `get_visible_stars_batch` (the `{"at": iso, "stars": stars}`
dict, with the instant kept as a rational). -/
structure StarsFrame where
  at_time : ℚ
  stars : List VisibleStar
deriving DecidableEq

/-- `star_service.get_visible_stars_batch`.  `horiz_at t` abstracts the
horizontal transform at instant `t` for the fixed observer. -/
def get_visible_stars_batch (horiz_at : ℚ → CatalogStar → ℚ × ℚ)
    (catalog : List CatalogStar) (start_dt end_dt step_hours : ℚ)
    (max_magnitude : Option ℚ) (limit : Option ℤ) :
    Except String (List StarsFrame) :=
  if end_dt ≤ start_dt then .ok []
  else
    match _iterate_datetimes_utc start_dt end_dt step_hours with
    | .error e => .error e
    | .ok times =>
      .ok (times.map fun t =>
        { at_time := t
          stars := get_visible_stars (horiz_at t) catalog (-90) limit true max_magnitude })

/-- `star_service.get_visible_bodies_batch`.  `bodies_at t` abstracts the
full `get_visible_bodies` computation (skyfield ephemeris) at instant `t`;
the body type is kept abstract. -/
def get_visible_bodies_batch {β : Type} (bodies_at : ℚ → List β)
    (start_dt end_dt step_hours : ℚ) (limit : Option ℤ) :
    Except String (List (ℚ × List β)) :=
  if end_dt ≤ start_dt then .ok []
  else
    match _iterate_datetimes_utc start_dt end_dt step_hours with
    | .error e => .error e
    | .ok times => .ok (times.map fun t => (t, applyLimit (bodies_at t) limit))

/-- An astronomy event (the `{"type","time","description"}` dict). -/
structure AstroEvent where
  etype : String
  time : String
  description : String
deriving DecidableEq

/-- Sort key relation for `events.sort(key=time)`. -/
def timeLE (a b : AstroEvent) : Prop := a.time ≤ b.time

instance : DecidableRel timeLE :=
  fun a b => inferInstanceAs (Decidable (a.time ≤ b.time))

/-- `star_service.get_astronomy_events`: raises ValueError when
`end ≤ start`, otherwise collects the provider events (moon phases and
planet rise/set transitions, all computed by the skyfield almanac, here
abstracted as `provider`) and sorts them by time. -/
def get_astronomy_events (provider : List AstroEvent) (start_dt end_dt : ℚ) :
    Except String (List AstroEvent) :=
  if end_dt ≤ start_dt then .error ("end_datetime debe ser posterior a start_datetime")
  else .ok (provider.insertionSort timeLE)

/-- The `/astronomy-events` endpoint (`main.astronomy_events`): any
exception from `get_astronomy_events` is caught and an empty list is
returned to the client. -/
def astronomy_events_endpoint (provider : List AstroEvent) (start_dt end_dt : ℚ) :
    List AstroEvent :=
  match get_astronomy_events provider start_dt end_dt with
  | .error _ => []
  | .ok evs => evs

/- ------------------------------------------------------------------ -/
/- IAU locator (iau.py lines 92-140)                                  -/
/- ------------------------------------------------------------------ -/

/-- `iau._wrap_ra_to_center`: re-center every RA value into the 360-degree
window around `center_ra`, handling the 0/360 wrap. -/
def _wrap_ra_to_center (values : List ℚ) (center_ra : ℚ) : List ℚ :=
  values.map fun ra => center_ra + (pymod (ra - center_ra + 180) 360 - 180)

/-- `iau._point_in_polygon_2d`: 2-D ray casting with the half-open rule
`(y1 > y) != (y2 > y)`.  The Python loop pairs `poly[i]` with
`poly[(i+1) % n]`, which is exactly `poly.zip (poly.rotate 1)`, and
toggles `inside` on each crossing. -/
def _point_in_polygon_2d (x y : ℚ) (poly : List (ℚ × ℚ)) : Bool :=
  if poly.length < 3 then false
  else
    (poly.zip (poly.rotate 1)).foldl
      (fun inside e =>
        let x1 := e.1.1
        let y1 := e.1.2
        let x2 := e.2.1
        let y2 := e.2.2
        if (decide (y1 > y) != decide (y2 > y))
            && decide (x < (x2 - x1) * (y - y1) / (y2 - y1 + 1e-12) + x1)
        then !inside else inside)
      false

/-- The per-polygon test inside `find_constellation_by_radec`: build the
adjusted polygon (`zip` of the wrapped RA list with the Dec list) and ray
cast. -/
def polyContains (ra dec : ℚ) (poly : List (ℚ × ℚ)) : Bool :=
  _point_in_polygon_2d ra dec
    ((_wrap_ra_to_center (poly.map Prod.fst) ra).zip (poly.map Prod.snd))

/-- The nested `for name, polys in boundaries.items(): for poly in polys:
... return name` loop of `find_constellation_by_radec` (early return on
the first containing polygon). -/
def findFirstContaining :
    List (String × List (List (ℚ × ℚ))) → ℚ → ℚ → Option String
  | [], _, _ => none
  | (name, polys) :: rest, ra, dec =>
    if polys.any fun poly => polyContains ra dec poly then some name
    else findFirstContaining rest ra dec

/-- `iau.find_constellation_by_radec`, with the boundaries file content as
an explicit input (an association list, in JSON enumeration order). -/
def find_constellation_by_radec (boundaries : List (String × List (List (ℚ × ℚ))))
    (ra_deg dec_deg : ℚ) : Option String :=
  if boundaries = [] then none
  else
    let ra := pymod ra_deg 360
    let dec := max (-90) (min 90 dec_deg)
    findFirstContaining boundaries ra dec

/-- Modelled from the spec wording of C9/§4.9 (for comparison with the
source definition): normalize, then return the name of the FIRST
constellation in enumeration order one of whose polygons contains the
point, else none. -/
def find_constellation_by_radec_spec (boundaries : List (String × List (List (ℚ × ℚ))))
    (ra_deg dec_deg : ℚ) : Option String :=
  let ra := pymod ra_deg 360
  let dec := max (-90) (min 90 dec_deg)
  (boundaries.find? fun nb => nb.2.any fun poly => polyContains ra dec poly).map Prod.fst

/- ------------------------------------------------------------------ -/
/- Constellation definitions (constellations.py) and frames           -/
/- ------------------------------------------------------------------ -/

/-- One constellation definition (`constellations.CONSTELLATIONS` value). -/
structure ConstellationDef where
  stars : List String
  edges : List (String × String)
deriving DecidableEq

/-- `constellations.CONSTELLATIONS`, verbatim, in insertion order. -/
def CONSTELLATIONS : List (String × ConstellationDef) :=
  [ ("Ursa Minor",
     { stars := ["Polaris", "Yildun", "Epsilon UMi", "Zeta UMi", "Pherkad", "Kochab"]
       edges := [("Polaris", "Yildun"), ("Yildun", "Epsilon UMi"),
                 ("Epsilon UMi", "Zeta UMi"), ("Zeta UMi", "Pherkad"),
                 ("Pherkad", "Kochab"), ("Kochab", "Polaris"),
                 ("Kochab", "Pherkad")] })
  , ("Ursa Major",
     { stars := ["Dubhe", "Merak", "Phecda", "Megrez", "Alioth", "Mizar", "Alkaid"]
       edges := [("Dubhe", "Merak"), ("Merak", "Phecda"), ("Phecda", "Megrez"),
                 ("Megrez", "Dubhe"), ("Megrez", "Alioth"), ("Alioth", "Mizar"),
                 ("Mizar", "Alkaid")] })
  , ("Draco",
     { stars := ["Eltanin", "Rastaban", "Grumium", "Kuma", "Edasich", "Thuban",
                 "Gianfar", "Aldhibah"]
       edges := [("Eltanin", "Rastaban"), ("Rastaban", "Grumium"),
                 ("Grumium", "Kuma"), ("Kuma", "Edasich"), ("Edasich", "Thuban"),
                 ("Thuban", "Gianfar"), ("Gianfar", "Aldhibah")] })
  , ("Cepheus",
     { stars := ["Alderamin", "Alfirk", "Delta Cephei", "Zeta Cephei", "Errai"]
       edges := [("Alderamin", "Alfirk"), ("Alfirk", "Delta Cephei"),
                 ("Delta Cephei", "Zeta Cephei"), ("Zeta Cephei", "Errai"),
                 ("Errai", "Alderamin")] })
  , ("Cassiopeia",
     { stars := ["Schedar", "Caph", "Gamma Cassiopeiae", "Ruchbah", "Segin"]
       edges := [("Schedar", "Caph"), ("Caph", "Gamma Cassiopeiae"),
                 ("Gamma Cassiopeiae", "Ruchbah"), ("Ruchbah", "Segin")] })
  ]

/-- `constellations.list_constellations`. -/
def list_constellations : List String := CONSTELLATIONS.map Prod.fst

/-- `constellations.get_constellation_definition`: dict lookup, raising
KeyError for unknown names. -/
def get_constellation_definition (name : String) : Except String ConstellationDef :=
  match CONSTELLATIONS.find? fun nc => nc.1 = name with
  | none => .error ("Constellation not found: " ++ name)
  | some nc => .ok nc.2

/-- The frame emitted by `get_constellation_frame` (the `at` timestamp
string, pure formatting of the input instant, is omitted). -/
structure ConstellationFrame where
  name : String
  stars : List VisibleStar
  edges : List (String × String)
deriving DecidableEq

/-- The `{s.name: s for s in catalog}` index followed by `.get(name)`:
for duplicate names the LAST catalog occurrence wins. -/
def catalog_index (catalog : List CatalogStar) (name : String) : Option CatalogStar :=
  (catalog.filter fun s => s.name = name).getLast?

/-- `star_service.get_constellation_frame`.  `altaz ra_hours dec_deg`
abstracts the skyfield topocentric apparent alt/az of a J2000 star at the
fixed observer/instant of the call. -/
def get_constellation_frame (altaz : ℚ → ℚ → ℚ × ℚ) (catalog : List CatalogStar)
    (constellation_name : String) : Except String ConstellationFrame :=
  match get_constellation_definition constellation_name with
  | .error e => .error e
  | .ok defn =>
    .ok { name := constellation_name
          stars := defn.stars.filterMap fun n =>
            match catalog_index catalog n with
            | none => none
            | some cat_star =>
              some { name := n
                     magnitude := cat_star.magnitude
                     altitude_deg := (altaz cat_star.ra_hours cat_star.dec_deg).1
                     azimuth_deg := (altaz cat_star.ra_hours cat_star.dec_deg).2 }
          edges := defn.edges }

/- ------------------------------------------------------------------ -/
/- Real-valued transforms (star_service lines 73-175, main.py 159-175)-/
/- ------------------------------------------------------------------ -/

/-- Python float modulo over the reals (`x % m = x - m * floor (x / m)`
for a positive modulus). -/
noncomputable def pymodR (x m : ℝ) : ℝ := x - m * ⌊x / m⌋

/-- `star_service._normalize_degrees_360` (used on real-valued degrees). -/
noncomputable def _normalize_degrees_360 (deg : ℝ) : ℝ := pymodR deg 360

/-- `star_service._deg_to_rad` (`math.radians`). -/
noncomputable def _deg_to_rad (deg : ℝ) : ℝ := deg * (Real.pi / 180)

/-- `star_service._rad_to_deg` (`math.degrees`). -/
noncomputable def _rad_to_deg (rad : ℝ) : ℝ := rad * (180 / Real.pi)

/-- The clamp `max(-1.0, min(1.0, t))` guarding both `asin` calls. -/
noncomputable def clampUnit (t : ℝ) : ℝ := max (-1) (min 1 t)

/-- `math.atan2 y x`: the angle of the point `(x, y)`, in `(-pi, pi]`. -/
noncomputable def atan2 (y x : ℝ) : ℝ :=
  if 0 < x then Real.arctan (y / x)
  else if x < 0 then
    (if 0 ≤ y then Real.arctan (y / x) + Real.pi else Real.arctan (y / x) - Real.pi)
  else
    (if 0 < y then Real.pi / 2 else if y < 0 then -(Real.pi / 2) else 0)

/-- `star_service._equatorial_to_horizontal`, returning
(altitude_deg, azimuth_deg). -/
noncomputable def _equatorial_to_horizontal
    (ra_hours dec_deg latitude_deg lst_hours : ℝ) : ℝ × ℝ :=
  let ra_rad := _deg_to_rad (ra_hours * 15)
  let dec_rad := _deg_to_rad dec_deg
  let lat_rad := _deg_to_rad latitude_deg
  let lst_rad := _deg_to_rad (lst_hours * 15)
  let ha_rad := lst_rad - ra_rad
  let sin_alt := Real.sin dec_rad * Real.sin lat_rad
    + Real.cos dec_rad * Real.cos lat_rad * Real.cos ha_rad
  let alt_rad := Real.arcsin (clampUnit sin_alt)
  let cos_alt := max 1e-9 (Real.cos alt_rad)
  let sin_az := -Real.cos dec_rad * Real.sin ha_rad / cos_alt
  let cos_az := (Real.sin dec_rad - Real.sin alt_rad * Real.sin lat_rad)
    / (cos_alt * Real.cos lat_rad)
  let az_rad := atan2 sin_az cos_az
  (_rad_to_deg alt_rad, _normalize_degrees_360 (_rad_to_deg az_rad))

/-- The declination (radians) computed by the inverse transform of
`main.constellation_by_direction` (it depends only on alt, az and the
latitude). -/
noncomputable def invDecRad (az_deg alt_deg latitude_deg : ℝ) : ℝ :=
  Real.arcsin (clampUnit
    (Real.sin (_deg_to_rad alt_deg) * Real.sin (_deg_to_rad latitude_deg)
      + Real.cos (_deg_to_rad alt_deg) * Real.cos (_deg_to_rad latitude_deg)
        * Real.cos (_deg_to_rad az_deg)))

/-- The inverse transform (alt/az to RA/Dec, both in degrees) as
implemented inline in `main.constellation_by_direction` (lines 159-175). -/
noncomputable def inverse_altaz_to_radec
    (az_deg alt_deg latitude_deg lst_hours : ℝ) : ℝ × ℝ :=
  let lst_rad := _deg_to_rad (lst_hours * 15)
  let lat_rad := _deg_to_rad latitude_deg
  let alt_rad := _deg_to_rad alt_deg
  let az_rad := _deg_to_rad az_deg
  let sin_dec := Real.sin alt_rad * Real.sin lat_rad
    + Real.cos alt_rad * Real.cos lat_rad * Real.cos az_rad
  let dec_rad := Real.arcsin (clampUnit sin_dec)
  let cos_dec := max 1e-9 (Real.cos dec_rad)
  let sin_ha := -Real.sin az_rad * Real.cos alt_rad / cos_dec
  let cos_ha := (Real.sin alt_rad - Real.sin lat_rad * Real.sin dec_rad)
    / (Real.cos lat_rad * cos_dec)
  let ha_rad := atan2 sin_ha cos_ha
  let ra_rad := pymodR (lst_rad - ha_rad) (2 * Real.pi)
  (_rad_to_deg ra_rad, _rad_to_deg dec_rad)

/- ------------------------------------------------------------------ -/
/- Magnitude formulas (star_service lines 186-229)                    -/
/- ------------------------------------------------------------------ -/

/-- `math.log10`. -/
noncomputable def log10 (x : ℝ) : ℝ := Real.logb 10 x

/-- Python `str.lower()` (ASCII case folding suffices for the planet
names used here). -/
def pyLower (s : String) : String := ⟨s.data.map Char.toLower⟩

/-- `star_service._planet_magnitude`. -/
noncomputable def _planet_magnitude (planet_name : String)
    (r_au delta_au phase_angle_deg : ℝ) : Option ℝ :=
  let log_term := 5.0 * log10 (max 1e-12 (r_au * delta_au))
  let a := phase_angle_deg
  let name := pyLower planet_name
  if name = "mercury" then
    some (-0.60 + log_term + 0.0380 * a - 0.000273 * a * a + 0.000002 * a * a * a)
  else if name = "venus" then
    some (-4.47 + log_term + 0.036 * a - 0.000000484 * a ^ 3)
  else if name = "mars" then
    some (-1.52 + log_term + 0.016 * a)
  else if name = "jupiter barycenter" ∨ name = "jupiter" then
    some (-9.40 + log_term + 0.005 * a)
  else if name = "saturn barycenter" ∨ name = "saturn" then
    some (-8.88 + log_term + 0.044 * a)
  else if name = "uranus barycenter" ∨ name = "uranus" then
    some (-7.19 + log_term + 0.002 * a)
  else if name = "neptune barycenter" ∨ name = "neptune" then
    some (-6.87 + log_term)
  else none

/-- `star_service._moon_magnitude`. -/
noncomputable def _moon_magnitude (phase_angle_deg delta_km : ℝ) : ℝ :=
  let a := phase_angle_deg
  let m := -12.7 + 0.026 * |a| + 4e-9 * a ^ 4
  if delta_km > 0 then m + 5.0 * log10 (delta_km / 384400.0) else m

/- ------------------------------------------------------------------ -/
/- Helper lemmas                                                      -/
/- ------------------------------------------------------------------ -/

theorem pymod_nonneg (x m : ℚ) (hm : 0 < m) : 0 ≤ pymod x m := by
  unfold pymod
  have hx : m * (x / m) = x := by field_simp
  have h := mul_le_mul_of_nonneg_left (Int.floor_le (x / m)) hm.le
  rw [hx] at h
  linarith

theorem pymod_lt (x m : ℚ) (hm : 0 < m) : pymod x m < m := by
  unfold pymod
  have hx : m * (x / m) = x := by field_simp
  have h := mul_lt_mul_of_pos_left (Int.lt_floor_add_one (x / m)) hm
  rw [hx] at h
  nlinarith

theorem pymod_add_left (x y m : ℚ) : pymod (pymod x m + y) m = pymod (x + y) m := by
  rcases eq_or_ne m 0 with hm | hm
  · simp [pymod, hm]
  · unfold pymod
    have h1 : (x - m * ⌊x / m⌋ + y) / m = (x + y) / m - ⌊x / m⌋ := by
      field_simp
      ring
    rw [h1, Int.floor_sub_int]
    push_cast
    ring

/-- C6: for every UTC instant and longitude, `_lst_hours` equals
`(18.697374558 + 24.06570982441908 * (JD - 2451545.0) + lon/15) mod 24`
with JD the Meeus Julian date (`_julian_date`, month-shift and Gregorian
offset B = 2 - A + A/4, A = year/100), and the result lies in [0, 24). -/
theorem C6_lst_hours_meeus (dt : UTCDatetime) (lon : ℚ) :
    _lst_hours lon dt
      = pymod (18.697374558 + 24.06570982441908 * (_julian_date dt - 2451545.0) + lon / 15) 24
    ∧ 0 ≤ _lst_hours lon dt ∧ _lst_hours lon dt < 24 := by
  refine ⟨?_, ?_, ?_⟩
  · unfold _lst_hours _gmst_hours _normalize_hours
    exact pymod_add_left _ _ _
  · unfold _lst_hours _normalize_hours
    exact pymod_nonneg _ _ (by norm_num)
  · unfold _lst_hours _normalize_hours
    exact pymod_lt _ _ (by norm_num)

theorem applyLimit_nonpos {β : Type} (l : List β) (n : ℤ) (h : n ≤ 0) :
    applyLimit l (some n) = l := by
  simp [applyLimit, not_lt.mpr h]

theorem applyLimit_pos {β : Type} (l : List β) (n : ℤ) (h : 0 < n) :
    applyLimit l (some n) = l.take n.toNat := by
  simp [applyLimit, h]

theorem applyLimit_none {β : Type} (l : List β) : applyLimit l none = l := rfl

/-- C10 (implicit): in `get_visible_stars` and in every frame of
`get_visible_bodies_batch`, a limit of zero or a negative limit is
silently ignored (the full filtered, sorted list is returned), and a
positive limit truncates to that many elements. -/
theorem C10_limit_only_truncates_when_positive {β : Type}
    (horiz : CatalogStar → ℚ × ℚ) (catalog : List CatalogStar)
    (min_alt : ℚ) (sort_by : Bool) (max_mag : Option ℚ)
    (bodies_at : ℚ → List β) (s e st : ℚ) (n k : ℕ) :
    (get_visible_stars horiz catalog min_alt (some (-(n : ℤ))) sort_by max_mag
      = get_visible_stars horiz catalog min_alt none sort_by max_mag)
    ∧ (get_visible_stars horiz catalog min_alt (some ((k : ℤ) + 1)) sort_by max_mag
      = (get_visible_stars horiz catalog min_alt none sort_by max_mag).take (k + 1))
    ∧ (get_visible_bodies_batch bodies_at s e st (some (-(n : ℤ)))
      = get_visible_bodies_batch bodies_at s e st none)
    ∧ (get_visible_bodies_batch bodies_at s e st (some ((k : ℤ) + 1))
      = (get_visible_bodies_batch bodies_at s e st none).map
          (List.map fun fr => (fr.1, fr.2.take (k + 1)))) := by
  have hneg : (-(n : ℤ)) ≤ 0 := by omega
  have hpos : (0 : ℤ) < (k : ℤ) + 1 := by omega
  have htn : ((k : ℤ) + 1).toNat = k + 1 := by omega
  refine ⟨?_, ?_, ?_, ?_⟩
  · unfold get_visible_stars
    rw [applyLimit_nonpos _ _ hneg, applyLimit_none]
  · unfold get_visible_stars
    rw [applyLimit_pos _ _ hpos, applyLimit_none, htn]
  · unfold get_visible_bodies_batch
    split
    · rfl
    · cases _iterate_datetimes_utc s e st with
      | error e => rfl
      | ok times =>
        simp only [List.map_map]
        congr 1
        congr 1
        funext t
        rw [applyLimit_nonpos _ _ hneg, applyLimit_none]
  · unfold get_visible_bodies_batch
    split
    · rfl
    · cases _iterate_datetimes_utc s e st with
      | error e => rfl
      | ok times =>
        simp only [Except.map, List.map_map]
        have hf : ((fun fr : ℚ × List β => (fr.1, fr.2.take (k + 1))) ∘
            fun t => (t, applyLimit (bodies_at t) none))
            = fun t => (t, applyLimit (bodies_at t) (some ((k : ℤ) + 1))) := by
          funext t
          simp [Function.comp, applyLimit_pos _ _ hpos, applyLimit_none, htn]
        rw [hf]

/-- C9: whenever the requested window has `end ≤ start`, the two batch
functions return the empty frame list and the `/astronomy-events`
endpoint returns the empty event list (the ValueError raised by
`get_astronomy_events` is caught by the endpoint, so no error reaches
the client). -/
theorem C9_end_le_start_empty {β : Type}
    (horiz_at : ℚ → CatalogStar → ℚ × ℚ) (catalog : List CatalogStar)
    (bodies_at : ℚ → List β) (provider : List AstroEvent)
    (start_dt end_dt step_hours : ℚ) (max_mag : Option ℚ) (limit : Option ℤ)
    (h : end_dt ≤ start_dt) :
    get_visible_stars_batch horiz_at catalog start_dt end_dt step_hours max_mag limit = .ok []
    ∧ get_visible_bodies_batch bodies_at start_dt end_dt step_hours limit = .ok []
    ∧ astronomy_events_endpoint provider start_dt end_dt = [] := by
  refine ⟨?_, ?_, ?_⟩
  · unfold get_visible_stars_batch
    rw [if_pos h]
  · unfold get_visible_bodies_batch
    rw [if_pos h]
  · unfold astronomy_events_endpoint get_astronomy_events
    rw [if_pos h]

/-- Witness for C9 at a concrete degenerate window (start 1, end 0). -/
theorem C9_end_le_start_empty_witness :
    ((0 : ℚ) ≤ 1)
    ∧ get_visible_stars_batch (fun _ _ => (0, 0)) [] 1 0 1 none none = .ok []
    ∧ get_visible_bodies_batch (fun _ => ([] : List Unit)) 1 0 1 none = .ok []
    ∧ astronomy_events_endpoint [] 1 0 = [] := by
  have h : (0 : ℚ) ≤ 1 := by norm_num
  obtain ⟨h1, h2, h3⟩ :=
    C9_end_le_start_empty (fun _ _ => (0, 0)) [] (fun _ => ([] : List Unit)) [] 1 0 1 none none h
  exact ⟨h, h1, h2, h3⟩

theorem visibleResults_eq_filter_map (horiz : CatalogStar → ℚ × ℚ)
    (catalog : List CatalogStar) (min_alt : ℚ) :
    visibleResults horiz catalog min_alt
      = (catalog.filter fun s => min_alt ≤ (horiz s).1).map (starItem horiz) := by
  induction catalog with
  | nil => rfl
  | cons a l ih =>
    by_cases h : min_alt ≤ (horiz a).1 <;>
      simp [visibleResults, List.filterMap_cons, List.filter_cons, h] at ih ⊢ <;>
      exact ih

/-- C5: a catalog star is kept exactly when its altitude is at least
`minimum_altitude_deg` (equality kept) and, when `max_magnitude` is
given, its magnitude is at most `max_magnitude`; the limit truncation
happens only after filtering and sorting, so the returned list is a
prefix of the filtered sorted list. -/
theorem C5_filter_then_sort_then_limit (horiz : CatalogStar → ℚ × ℚ)
    (catalog : List CatalogStar) (min_alt : ℚ) (limit : Option ℤ) (sort_by : Bool) :
    (applyMaxMagnitude (visibleResults horiz catalog min_alt) none
      = (catalog.filter fun s => min_alt ≤ (horiz s).1).map (starItem horiz))
    ∧ (∀ m : ℚ, applyMaxMagnitude (visibleResults horiz catalog min_alt) (some m)
      = (catalog.filter fun s => min_alt ≤ (horiz s).1 ∧ s.magnitude ≤ m).map (starItem horiz))
    ∧ (∀ v ∈ visibleResults horiz catalog min_alt, min_alt ≤ v.altitude_deg)
    ∧ (∀ m : ℚ, ∀ v ∈ applyMaxMagnitude (visibleResults horiz catalog min_alt) (some m),
        v.magnitude ≤ m)
    ∧ (∀ max_mag : Option ℚ, ∃ rest,
        sortResults (applyMaxMagnitude (visibleResults horiz catalog min_alt) max_mag) sort_by
          = get_visible_stars horiz catalog min_alt limit sort_by max_mag ++ rest) := by
  refine ⟨visibleResults_eq_filter_map horiz catalog min_alt, ?_, ?_, ?_, ?_⟩
  · intro m
    rw [show applyMaxMagnitude (visibleResults horiz catalog min_alt) (some m)
        = (visibleResults horiz catalog min_alt).filter (fun r => r.magnitude ≤ m) from rfl,
      visibleResults_eq_filter_map horiz catalog min_alt, List.filter_map,
      List.filter_filter]
    congr 1
    apply List.filter_congr
    intro s _
    simp [starItem, Function.comp, decide_eq_true_eq, Bool.and_comm]
  · intro v hv
    rw [visibleResults_eq_filter_map horiz catalog min_alt] at hv
    obtain ⟨s, hs, rfl⟩ := List.mem_map.1 hv
    have := List.of_mem_filter hs
    simpa [starItem] using this
  · intro m v hv
    simp only [applyMaxMagnitude] at hv
    have := List.of_mem_filter hv
    simpa using this
  · intro max_mag
    unfold get_visible_stars
    cases limit with
    | none => exact ⟨[], by rw [applyLimit_none, List.append_nil]⟩
    | some n =>
      rcases lt_or_le 0 n with hn | hn
      · refine ⟨(sortResults (applyMaxMagnitude
          (visibleResults horiz catalog min_alt) max_mag) sort_by).drop n.toNat, ?_⟩
        rw [applyLimit_pos _ _ hn, List.take_append_drop]
      · exact ⟨[], by rw [applyLimit_nonpos _ _ hn, List.append_nil]⟩

theorem filter_orderedInsert_magEq (a : VisibleStar) (m : ℚ) (s : List VisibleStar) :
    ((s.orderedInsert magLE a).filter fun v => v.magnitude = m)
      = if a.magnitude = m
        then a :: s.filter (fun v => v.magnitude = m)
        else s.filter fun v => v.magnitude = m := by
  induction s with
  | nil =>
    by_cases h : a.magnitude = m <;> simp [List.orderedInsert, h]
  | cons b t ih =>
    by_cases hab : magLE a b
    · by_cases h : a.magnitude = m <;>
        simp [List.orderedInsert, hab, List.filter_cons, h]
    · by_cases h : a.magnitude = m
      · have hbm : ¬ b.magnitude = m := by
          unfold magLE at hab
          push_neg at hab
          rw [h] at hab
          exact ne_of_lt hab
        simp [List.orderedInsert, hab, List.filter_cons, hbm, ih, h]
      · by_cases hb : b.magnitude = m <;>
          simp [List.orderedInsert, hab, List.filter_cons, hb, ih, h]

theorem filter_insertionSort_magEq (m : ℚ) (l : List VisibleStar) :
    ((l.insertionSort magLE).filter fun v => v.magnitude = m)
      = l.filter fun v => v.magnitude = m := by
  induction l with
  | nil => rfl
  | cons a t ih =>
    rw [List.insertionSort, filter_orderedInsert_magEq]
    by_cases h : a.magnitude = m <;> simp [List.filter_cons, h, ih]

/-- C1 (amended): with `sort_by_magnitude = true` the returned list is
sorted by magnitude ascending, and stars of equal magnitude appear in
catalog order (the sort is stable) rather than in lexicographic name
order; with `max_mag = 1` and `limit = 3`, provided the filtered catalog
has at least 3 stars of magnitude at most 1, exactly 3 stars are
returned, each of magnitude at most 1. -/
theorem C1_sorted_by_magnitude_stable (horiz : CatalogStar → ℚ × ℚ)
    (catalog : List CatalogStar) (min_alt : ℚ) (limit : Option ℤ) (max_mag : Option ℚ) :
    (get_visible_stars horiz catalog min_alt limit true max_mag).Sorted magLE
    ∧ (∀ m : ℚ,
        ((sortResults (applyMaxMagnitude (visibleResults horiz catalog min_alt) max_mag)
            true).filter fun v => v.magnitude = m)
          = (applyMaxMagnitude (visibleResults horiz catalog min_alt) max_mag).filter
              fun v => v.magnitude = m)
    ∧ (3 ≤ (applyMaxMagnitude (visibleResults horiz catalog min_alt) (some 1)).length →
        (get_visible_stars horiz catalog min_alt (some 3) true (some 1)).length = 3
        ∧ ∀ v ∈ get_visible_stars horiz catalog min_alt (some 3) true (some 1),
            v.magnitude ≤ 1) := by
  refine ⟨?_, ?_, ?_⟩
  · have hs : (sortResults (applyMaxMagnitude (visibleResults horiz catalog min_alt)
        max_mag) true).Sorted magLE := by
      unfold sortResults
      simp only [if_pos]
      exact List.sorted_insertionSort magLE _
    unfold get_visible_stars
    cases limit with
    | none => exact hs
    | some n =>
      rcases lt_or_le 0 n with hn | hn
      · rw [applyLimit_pos _ _ hn]
        exact hs.sublist (List.take_sublist _ _)
      · rw [applyLimit_nonpos _ _ hn]
        exact hs
  · intro m
    unfold sortResults
    simp only [if_pos]
    exact filter_insertionSort_magEq m _
  · intro h
    have hlen3 : (get_visible_stars horiz catalog min_alt (some 3) true (some 1)).length = 3 := by
      unfold get_visible_stars
      rw [applyLimit_pos _ _ (by norm_num : (0 : ℤ) < 3)]
      have : ((3 : ℤ).toNat) = 3 := rfl
      rw [this, List.length_take]
      unfold sortResults
      simp only [if_pos]
      rw [List.length_insertionSort]
      omega
    refine ⟨hlen3, ?_⟩
    intro v hv
    unfold get_visible_stars at hv
    rw [applyLimit_pos _ _ (by norm_num : (0 : ℤ) < 3)] at hv
    have hv2 := List.take_subset _ _ hv
    unfold sortResults at hv2
    simp only [if_pos] at hv2
    rw [List.mem_insertionSort] at hv2
    simp only [applyMaxMagnitude] at hv2
    have := List.of_mem_filter hv2
    simpa using this

/-- Witness for the amended C1 scenario on a concrete three-star catalog. -/
theorem C1_sorted_by_magnitude_stable_witness :
    (3 ≤ (applyMaxMagnitude (visibleResults (fun _ => (0, 0))
        [⟨"A", 0, 0, 0⟩, ⟨"B", 0, 0, 1⟩, ⟨"C", 0, 0, 1⟩] (-90)) (some 1)).length)
    ∧ (get_visible_stars (fun _ => (0, 0))
        [⟨"A", 0, 0, 0⟩, ⟨"B", 0, 0, 1⟩, ⟨"C", 0, 0, 1⟩] (-90) (some 3) true
        (some 1)).length = 3 := by
  have h : 3 ≤ (applyMaxMagnitude (visibleResults (fun _ => (0, 0))
      [⟨"A", 0, 0, 0⟩, ⟨"B", 0, 0, 1⟩, ⟨"C", 0, 0, 1⟩] (-90)) (some 1)).length := by
    decide
  exact ⟨h, ((C1_sorted_by_magnitude_stable (fun _ => (0, 0))
    [⟨"A", 0, 0, 0⟩, ⟨"B", 0, 0, 1⟩, ⟨"C", 0, 0, 1⟩] (-90) (some 3) (some 1)).2.2 h).1⟩

/-- Counterexample to C1 as stated: two stars of equal magnitude are
returned in catalog order "B" before "A", not in lexicographically
ascending name order, because the sort is a plain stable sort keyed on
magnitude with no name tie-break. -/
theorem C1_lex_tiebreak_counterexample :
    ((get_visible_stars (fun _ => (0, 0)) [⟨"B", 0, 0, 1⟩, ⟨"A", 0, 0, 1⟩]
        (-90) none true none).map VisibleStar.name = ["B", "A"])
    ∧ ((get_visible_stars (fun _ => (0, 0)) [⟨"B", 0, 0, 1⟩, ⟨"A", 0, 0, 1⟩]
        (-90) none true none).map VisibleStar.magnitude = [1, 1])
    ∧ ("A" < "B") := by
  refine ⟨by decide, by decide, ?_⟩
  rw [String.lt_iff_toList_lt]
  decide

/-- C2: `get_constellation_frame` echoes the definition edge list
verbatim, positions only stars named in the definition, skips names
missing from the catalog silently (still returning a frame, not an
error), and for Ursa Minor returns at most the 6 named stars and exactly
the 7 definition edges. -/
theorem C2_constellation_frame (altaz : ℚ → ℚ → ℚ × ℚ) (catalog : List CatalogStar)
    (name : String) (defn : ConstellationDef)
    (h : get_constellation_definition name = .ok defn) :
    ∃ f, get_constellation_frame altaz catalog name = .ok f
      ∧ f.edges = defn.edges
      ∧ (∀ s ∈ f.stars, s.name ∈ defn.stars)
      ∧ f.stars.length ≤ defn.stars.length
      ∧ (name = "Ursa Minor" →
          f.stars.length ≤ 6
          ∧ f.edges = [("Polaris", "Yildun"), ("Yildun", "Epsilon UMi"),
              ("Epsilon UMi", "Zeta UMi"), ("Zeta UMi", "Pherkad"),
              ("Pherkad", "Kochab"), ("Kochab", "Polaris"),
              ("Kochab", "Pherkad")]) := by
  unfold get_constellation_frame
  rw [h]
  refine ⟨_, rfl, rfl, ?_, ?_, ?_⟩
  · intro s hs
    obtain ⟨n, hn, hsome⟩ := List.mem_filterMap.1 hs
    cases hidx : catalog_index catalog n with
    | none => rw [hidx] at hsome; cases hsome
    | some c =>
      rw [hidx] at hsome
      cases hsome
      exact hn
  · exact List.length_filterMap_le _ _
  · intro hname
    subst hname
    have h2 : get_constellation_definition "Ursa Minor" = Except.ok
        { stars := ["Polaris", "Yildun", "Epsilon UMi", "Zeta UMi", "Pherkad", "Kochab"]
          edges := [("Polaris", "Yildun"), ("Yildun", "Epsilon UMi"),
            ("Epsilon UMi", "Zeta UMi"), ("Zeta UMi", "Pherkad"),
            ("Pherkad", "Kochab"), ("Kochab", "Polaris"),
            ("Kochab", "Pherkad")] } := by rfl
    rw [h] at h2
    have hdef : defn =
        { stars := ["Polaris", "Yildun", "Epsilon UMi", "Zeta UMi", "Pherkad", "Kochab"]
          edges := [("Polaris", "Yildun"), ("Yildun", "Epsilon UMi"),
            ("Epsilon UMi", "Zeta UMi"), ("Zeta UMi", "Pherkad"),
            ("Pherkad", "Kochab"), ("Kochab", "Polaris"),
            ("Kochab", "Pherkad")] } :=
      Except.ok.inj h2
    rw [hdef]
    exact ⟨List.length_filterMap_le _ _, rfl⟩

/-- Witness for C2 at the Ursa Minor definition with an empty catalog. -/
theorem C2_constellation_frame_witness :
    (get_constellation_definition "Ursa Minor" = Except.ok
      { stars := ["Polaris", "Yildun", "Epsilon UMi", "Zeta UMi", "Pherkad", "Kochab"]
        edges := [("Polaris", "Yildun"), ("Yildun", "Epsilon UMi"),
          ("Epsilon UMi", "Zeta UMi"), ("Zeta UMi", "Pherkad"),
          ("Pherkad", "Kochab"), ("Kochab", "Polaris"), ("Kochab", "Pherkad")] })
    ∧ ∃ f, get_constellation_frame (fun _ _ => (0, 0)) [] "Ursa Minor" = .ok f
        ∧ f.stars.length ≤ 6 := by
  have h : get_constellation_definition "Ursa Minor" = Except.ok
      { stars := ["Polaris", "Yildun", "Epsilon UMi", "Zeta UMi", "Pherkad", "Kochab"]
        edges := [("Polaris", "Yildun"), ("Yildun", "Epsilon UMi"),
          ("Epsilon UMi", "Zeta UMi"), ("Zeta UMi", "Pherkad"),
          ("Pherkad", "Kochab"), ("Kochab", "Polaris"),
          ("Kochab", "Pherkad")] } := by rfl
  obtain ⟨f, hf, _, _, _, hUM⟩ := C2_constellation_frame (fun _ _ => (0, 0)) [] "Ursa Minor" _ h
  exact ⟨h, f, hf, (hUM rfl).1⟩

theorem findFirstContaining_eq_findq (bs : List (String × List (List (ℚ × ℚ))))
    (ra dec : ℚ) :
    findFirstContaining bs ra dec
      = (bs.find? fun nb => nb.2.any fun poly => polyContains ra dec poly).map Prod.fst := by
  induction bs with
  | nil => rfl
  | cons b rest ih =>
    obtain ⟨name, polys⟩ := b
    by_cases h : (polys.any fun poly => polyContains ra dec poly) = true
    · rw [findFirstContaining, if_pos h]
      have hfind : List.find? (fun nb => nb.2.any fun poly => polyContains ra dec poly)
          ((name, polys) :: rest) = some (name, polys) :=
        List.find?_cons_of_pos rest h
      rw [hfind]
      rfl
    · rw [findFirstContaining, if_neg h]
      have hfind : List.find? (fun nb => nb.2.any fun poly => polyContains ra dec poly)
          ((name, polys) :: rest)
          = List.find? (fun nb => nb.2.any fun poly => polyContains ra dec poly) rest :=
        List.find?_cons_of_neg rest (by simpa using h)
      rw [hfind]
      exact ih

/-- C8: `find_constellation_by_radec` first normalizes ra mod 360 and
clamps dec to [-90, 90], then returns the name of the first constellation
in enumeration order one of whose (re-centered) polygons contains the
point under half-open ray casting, and none exactly when no polygon
contains the point. -/
theorem C8_find_by_radec_first_match
    (boundaries : List (String × List (List (ℚ × ℚ)))) (ra_deg dec_deg : ℚ) :
    (find_constellation_by_radec boundaries ra_deg dec_deg
      = find_constellation_by_radec_spec boundaries ra_deg dec_deg)
    ∧ (find_constellation_by_radec boundaries ra_deg dec_deg = none ↔
        ∀ nb ∈ boundaries, ∀ poly ∈ nb.2,
          polyContains (pymod ra_deg 360) (max (-90) (min 90 dec_deg)) poly = false) := by
  have hmain : find_constellation_by_radec boundaries ra_deg dec_deg
      = find_constellation_by_radec_spec boundaries ra_deg dec_deg := by
    unfold find_constellation_by_radec find_constellation_by_radec_spec
    by_cases hb : boundaries = []
    · subst hb; rfl
    · rw [if_neg hb]
      exact findFirstContaining_eq_findq boundaries _ _
  refine ⟨hmain, ?_⟩
  rw [hmain]
  unfold find_constellation_by_radec_spec
  rw [Option.map_eq_none']
  rw [List.find?_eq_none]
  constructor
  · intro h nb hnb poly hpoly
    have hno := h nb hnb
    simp only [List.any_eq_true] at hno
    rcases Bool.eq_false_or_eq_true (polyContains (pymod ra_deg 360)
        (max (-90) (min 90 dec_deg)) poly) with ht | hf
    · exact absurd ⟨poly, hpoly, ht⟩ hno
    · exact hf
  · intro h nb hnb
    simp only [List.any_eq_true]
    rintro ⟨poly, hpoly, ht⟩
    rw [h nb hnb poly hpoly] at ht
    cases ht

theorem pymodR_nonneg (x m : ℝ) (hm : 0 < m) : 0 ≤ pymodR x m := by
  unfold pymodR
  have hx : m * (x / m) = x := by field_simp
  have h := mul_le_mul_of_nonneg_left (Int.floor_le (x / m)) hm.le
  rw [hx] at h
  linarith

theorem pymodR_lt (x m : ℝ) (hm : 0 < m) : pymodR x m < m := by
  unfold pymodR
  have hx : m * (x / m) = x := by field_simp
  have h := mul_lt_mul_of_pos_left (Int.lt_floor_add_one (x / m)) hm
  rw [hx] at h
  nlinarith

theorem rad_to_deg_bounds (y : ℝ) (hy1 : -(Real.pi / 2) ≤ y) (hy2 : y ≤ Real.pi / 2) :
    -90 ≤ _rad_to_deg y ∧ _rad_to_deg y ≤ 90 := by
  unfold _rad_to_deg
  have hpi := Real.pi_pos
  have hd : (0 : ℝ) < 180 / Real.pi := by positivity
  constructor
  · have h := mul_le_mul_of_nonneg_right hy1 hd.le
    have heq : -(Real.pi / 2) * (180 / Real.pi) = -90 := by
      field_simp
      ring
    rw [heq] at h
    linarith
  · have h := mul_le_mul_of_nonneg_right hy2 hd.le
    have heq : Real.pi / 2 * (180 / Real.pi) = 90 := by
      field_simp
      ring
    rw [heq] at h
    linarith

/-- C3: the forward transform is total: the asin argument is clamped into
[-1, 1], the floored cos(alt) is strictly positive (so the azimuth
division never divides by zero), and the output satisfies
altitude_deg in [-90, 90] and azimuth_deg in [0, 360). -/
theorem C3_forward_transform_total (ra_hours dec_deg latitude_deg lst_hours : ℝ) :
    (∀ t : ℝ, -1 ≤ clampUnit t ∧ clampUnit t ≤ 1)
    ∧ (∀ a : ℝ, 0 < max 1e-9 (Real.cos a))
    ∧ -90 ≤ (_equatorial_to_horizontal ra_hours dec_deg latitude_deg lst_hours).1
    ∧ (_equatorial_to_horizontal ra_hours dec_deg latitude_deg lst_hours).1 ≤ 90
    ∧ 0 ≤ (_equatorial_to_horizontal ra_hours dec_deg latitude_deg lst_hours).2
    ∧ (_equatorial_to_horizontal ra_hours dec_deg latitude_deg lst_hours).2 < 360 := by
  refine ⟨?_, ?_, ?_, ?_, ?_, ?_⟩
  · intro t
    exact ⟨le_max_left _ _, max_le (by norm_num) (min_le_left _ _)⟩
  · intro a
    exact lt_max_iff.mpr (Or.inl (by norm_num))
  · simp only [_equatorial_to_horizontal]
    exact (rad_to_deg_bounds _ (Real.neg_pi_div_two_le_arcsin _)
      (Real.arcsin_le_pi_div_two _)).1
  · simp only [_equatorial_to_horizontal]
    exact (rad_to_deg_bounds _ (Real.neg_pi_div_two_le_arcsin _)
      (Real.arcsin_le_pi_div_two _)).2
  · simp only [_equatorial_to_horizontal, _normalize_degrees_360]
    exact pymodR_nonneg _ _ (by norm_num)
  · simp only [_equatorial_to_horizontal, _normalize_degrees_360]
    exact pymodR_lt _ _ (by norm_num)

/-- C7 (amended): for all distances with `r * Δ ≥ 1e-12` (the floor the
source applies inside the logarithm) and positive Moon distance, the
planet and Moon magnitude formulas are exactly the closed forms of the
claim, with `L = 5 log10 (r * Δ)`. -/
theorem C7_magnitude_formulas (r Δ α Δkm : ℝ) (h : 1e-12 ≤ r * Δ) (hk : 0 < Δkm) :
    _planet_magnitude "mercury" r Δ α
      = some (-0.60 + 5 * log10 (r * Δ) + 0.0380 * α - 2.73e-4 * α ^ 2 + 2e-6 * α ^ 3)
    ∧ _planet_magnitude "venus" r Δ α
      = some (-4.47 + 5 * log10 (r * Δ) + 0.036 * α - 4.84e-7 * α ^ 3)
    ∧ _planet_magnitude "mars" r Δ α = some (-1.52 + 5 * log10 (r * Δ) + 0.016 * α)
    ∧ _planet_magnitude "jupiter" r Δ α = some (-9.40 + 5 * log10 (r * Δ) + 0.005 * α)
    ∧ _planet_magnitude "saturn" r Δ α = some (-8.88 + 5 * log10 (r * Δ) + 0.044 * α)
    ∧ _planet_magnitude "uranus" r Δ α = some (-7.19 + 5 * log10 (r * Δ) + 0.002 * α)
    ∧ _planet_magnitude "neptune" r Δ α = some (-6.87 + 5 * log10 (r * Δ))
    ∧ _moon_magnitude α Δkm
      = -12.7 + 0.026 * |α| + 4e-9 * α ^ 4 + 5 * log10 (Δkm / 384400) := by
  have hmax : max (1e-12 : ℝ) (r * Δ) = r * Δ := max_eq_right h
  refine ⟨?_, ?_, ?_, ?_, ?_, ?_, ?_, ?_⟩
  · simp only [_planet_magnitude, hmax]
    rw [if_pos (show pyLower "mercury" = "mercury" by decide)]
    congr 1
    ring
  · simp only [_planet_magnitude, hmax]
    rw [if_neg (show ¬ pyLower "venus" = "mercury" by decide),
      if_pos (show pyLower "venus" = "venus" by decide)]
    congr 1
    ring
  · simp only [_planet_magnitude, hmax]
    rw [if_neg (show ¬ pyLower "mars" = "mercury" by decide),
      if_neg (show ¬ pyLower "mars" = "venus" by decide),
      if_pos (show pyLower "mars" = "mars" by decide)]
    congr 1
    ring
  · simp only [_planet_magnitude, hmax]
    rw [if_neg (show ¬ pyLower "jupiter" = "mercury" by decide),
      if_neg (show ¬ pyLower "jupiter" = "venus" by decide),
      if_neg (show ¬ pyLower "jupiter" = "mars" by decide),
      if_pos (show pyLower "jupiter" = "jupiter barycenter" ∨ pyLower "jupiter" = "jupiter"
        by decide)]
    congr 1
    ring
  · simp only [_planet_magnitude, hmax]
    rw [if_neg (show ¬ pyLower "saturn" = "mercury" by decide),
      if_neg (show ¬ pyLower "saturn" = "venus" by decide),
      if_neg (show ¬ pyLower "saturn" = "mars" by decide),
      if_neg (show ¬ (pyLower "saturn" = "jupiter barycenter" ∨ pyLower "saturn" = "jupiter")
        by decide),
      if_pos (show pyLower "saturn" = "saturn barycenter" ∨ pyLower "saturn" = "saturn"
        by decide)]
    congr 1
    ring
  · simp only [_planet_magnitude, hmax]
    rw [if_neg (show ¬ pyLower "uranus" = "mercury" by decide),
      if_neg (show ¬ pyLower "uranus" = "venus" by decide),
      if_neg (show ¬ pyLower "uranus" = "mars" by decide),
      if_neg (show ¬ (pyLower "uranus" = "jupiter barycenter" ∨ pyLower "uranus" = "jupiter")
        by decide),
      if_neg (show ¬ (pyLower "uranus" = "saturn barycenter" ∨ pyLower "uranus" = "saturn")
        by decide),
      if_pos (show pyLower "uranus" = "uranus barycenter" ∨ pyLower "uranus" = "uranus"
        by decide)]
    congr 1
    ring
  · simp only [_planet_magnitude, hmax]
    rw [if_neg (show ¬ pyLower "neptune" = "mercury" by decide),
      if_neg (show ¬ pyLower "neptune" = "venus" by decide),
      if_neg (show ¬ pyLower "neptune" = "mars" by decide),
      if_neg (show ¬ (pyLower "neptune" = "jupiter barycenter" ∨ pyLower "neptune" = "jupiter")
        by decide),
      if_neg (show ¬ (pyLower "neptune" = "saturn barycenter" ∨ pyLower "neptune" = "saturn")
        by decide),
      if_neg (show ¬ (pyLower "neptune" = "uranus barycenter" ∨ pyLower "neptune" = "uranus")
        by decide),
      if_pos (show pyLower "neptune" = "neptune barycenter" ∨ pyLower "neptune" = "neptune"
        by decide)]
    congr 1
    ring
  · simp only [_moon_magnitude]
    rw [if_pos hk]
    ring_nf

/-- Witness for C7 at r = Δ = 1 AU, α = 0, Δkm = 384400. -/
theorem C7_magnitude_formulas_witness :
    ((1e-12 : ℝ) ≤ 1 * 1) ∧ ((0 : ℝ) < 384400)
    ∧ _planet_magnitude "mercury" 1 1 0
      = some (-0.60 + 5 * log10 (1 * 1) + 0.0380 * 0 - 2.73e-4 * 0 ^ 2 + 2e-6 * 0 ^ 3) := by
  have h1 : (1e-12 : ℝ) ≤ 1 * 1 := by norm_num
  have h2 : (0 : ℝ) < 384400 := by norm_num
  exact ⟨h1, h2, (C7_magnitude_formulas 1 1 0 384400 h1 h2).1⟩

/-- Counterexample to C7 as stated for all r, Δ > 0: at
r = Δ = 1e-10 the product falls below the 1e-12 floor inside the
logarithm, so the returned magnitude differs from the claimed closed
form. -/
theorem C7_tiny_distance_counterexample :
    _planet_magnitude "mercury" 1e-10 1e-10 0
      ≠ some (-0.60 + 5 * log10 (1e-10 * 1e-10)
          + 0.0380 * 0 - 2.73e-4 * 0 ^ 2 + 2e-6 * 0 ^ 3) := by
  have hmax : max (1e-12 : ℝ) (1e-10 * 1e-10) = 1e-12 := by
    apply max_eq_left
    norm_num
  have hlt : log10 (1e-10 * 1e-10) < log10 1e-12 := by
    unfold log10
    refine Real.logb_lt_logb (by norm_num) (by norm_num) (by norm_num)
  intro hEq
  simp only [_planet_magnitude, hmax] at hEq
  rw [if_pos (show pyLower "mercury" = "mercury" by decide)] at hEq
  have heq2 := Option.some.inj hEq
  norm_num at heq2
  nlinarith [hlt]

theorem deg_of_rad_of_deg (x : ℝ) : _rad_to_deg (_deg_to_rad x) = x := by
  unfold _rad_to_deg _deg_to_rad
  field_simp

theorem rad_of_deg_of_rad (x : ℝ) : _deg_to_rad (_rad_to_deg x) = x := by
  unfold _rad_to_deg _deg_to_rad
  field_simp

theorem clampUnit_eq_self (t : ℝ) (h1 : -1 ≤ t) (h2 : t ≤ 1) : clampUnit t = t := by
  unfold clampUnit
  rw [min_eq_right h2, max_eq_right h1]

theorem atan2_cos_sin_unit (y x : ℝ) (h : x ^ 2 + y ^ 2 = 1) :
    Real.cos (atan2 y x) = x ∧ Real.sin (atan2 y x) = y := by
  rcases lt_trichotomy 0 x with hx | hx | hx
  · have hx0 : x ≠ 0 := ne_of_gt hx
    have hsq : 1 + (y / x) ^ 2 = 1 / x ^ 2 := by
      field_simp
      linarith
    have hsqrt : Real.sqrt (1 + (y / x) ^ 2) = 1 / x := by
      rw [hsq, one_div, Real.sqrt_inv, Real.sqrt_sq hx.le, one_div]
    unfold atan2
    rw [if_pos hx]
    constructor
    · rw [Real.cos_arctan, hsqrt]
      field_simp
    · rw [Real.sin_arctan, hsqrt]
      field_simp
  · subst hx
    have hy : y * y = 1 := by nlinarith
    rcases mul_self_eq_one_iff.1 hy with hy1 | hy1
    · subst hy1
      unfold atan2
      norm_num
    · subst hy1
      unfold atan2
      norm_num
  · have hx0 : x ≠ 0 := ne_of_lt hx
    have hsq : 1 + (y / x) ^ 2 = 1 / x ^ 2 := by
      field_simp
      linarith
    have hsqrt : Real.sqrt (1 + (y / x) ^ 2) = -(1 / x) := by
      rw [hsq, one_div, Real.sqrt_inv, Real.sqrt_sq_eq_abs, abs_of_neg hx]
      field_simp
    have hcos : Real.cos (Real.arctan (y / x)) = -x := by
      rw [Real.cos_arctan, hsqrt]
      field_simp
    have hsin : Real.sin (Real.arctan (y / x)) = -y := by
      rw [Real.sin_arctan, hsqrt]
      field_simp
    unfold atan2
    rw [if_neg (by linarith), if_pos hx]
    by_cases hy : 0 ≤ y
    · rw [if_pos hy]
      constructor
      · rw [Real.cos_add, Real.cos_pi, Real.sin_pi, hcos]
        ring
      · rw [Real.sin_add, Real.cos_pi, Real.sin_pi, hsin]
        ring
    · rw [if_neg hy]
      constructor
      · rw [Real.cos_sub, Real.cos_pi, Real.sin_pi, hcos]
        ring
      · rw [Real.sin_sub, Real.cos_pi, Real.sin_pi, hsin]
        ring

theorem atan2_sin_cos_shift (t : ℝ) :
    ∃ k : ℤ, atan2 (Real.sin t) (Real.cos t) = t + (k : ℝ) * (2 * Real.pi) := by
  have h : Real.cos t ^ 2 + Real.sin t ^ 2 = 1 := by
    have := Real.sin_sq_add_cos_sq t
    linarith
  obtain ⟨hc, hs⟩ := atan2_cos_sin_unit (Real.sin t) (Real.cos t) h
  have hone : Real.cos (atan2 (Real.sin t) (Real.cos t) - t) = 1 := by
    rw [Real.cos_sub, hc, hs]
    have := Real.sin_sq_add_cos_sq t
    ring_nf
    nlinarith
  obtain ⟨n, hn⟩ := (Real.cos_eq_one_iff _).1 hone
  exact ⟨n, by linarith⟩

theorem pymodR_add_int_mul (x m : ℝ) (k : ℤ) (hm : m ≠ 0) :
    pymodR (x + (k : ℝ) * m) m = pymodR x m := by
  unfold pymodR
  have h1 : (x + (k : ℝ) * m) / m = x / m + (k : ℝ) := by
    field_simp
  rw [h1, Int.floor_add_int]
  push_cast
  ring

theorem pymodR_eq_self (x m : ℝ) (h0 : 0 ≤ x) (h1 : x < m) : pymodR x m = x := by
  unfold pymodR
  have hm : 0 < m := lt_of_le_of_lt h0 h1
  have hfl : ⌊x / m⌋ = 0 := by
    rw [Int.floor_eq_zero_iff, Set.mem_Ico]
    exact ⟨div_nonneg h0 hm.le, (div_lt_one hm).mpr h1⟩
  rw [hfl]
  simp

theorem spherical_sin_bounds (a b c : ℝ) :
    -1 ≤ Real.sin a * Real.sin b + Real.cos a * Real.cos b * Real.cos c
    ∧ Real.sin a * Real.sin b + Real.cos a * Real.cos b * Real.cos c ≤ 1 := by
  have hc1 := Real.neg_one_le_cos c
  have hc2 := Real.cos_le_one c
  have hsub1 := Real.neg_one_le_cos (a - b)
  have hsub2 := Real.cos_le_one (a - b)
  have hadd1 := Real.neg_one_le_cos (a + b)
  have hadd2 := Real.cos_le_one (a + b)
  rw [Real.cos_sub] at hsub1 hsub2
  rw [Real.cos_add] at hadd1 hadd2
  rcases le_or_lt 0 (Real.cos a * Real.cos b) with hcc | hcc
  · constructor
    · nlinarith
    · nlinarith
  · constructor
    · nlinarith
    · nlinarith

theorem roundtrip_exact (az alt lat lst : ℝ)
    (halt1 : -90 ≤ alt) (halt2 : alt ≤ 90)
    (haz1 : 0 ≤ az) (haz2 : az < 360)
    (hcosalt : 1e-9 ≤ Real.cos (_deg_to_rad alt))
    (hcoslat : 0 < Real.cos (_deg_to_rad lat))
    (hcosdec : 1e-9 ≤ Real.cos (invDecRad az alt lat)) :
    _equatorial_to_horizontal ((inverse_altaz_to_radec az alt lat lst).1 / 15)
        (inverse_altaz_to_radec az alt lat lst).2 lat lst = (alt, az) := by
  unfold invDecRad at hcosdec
  simp only [inverse_altaz_to_radec, _equatorial_to_horizontal]
  rw [div_mul_cancel₀ _ (show (15 : ℝ) ≠ 0 by norm_num)]
  simp only [rad_of_deg_of_rad]
  set a := _deg_to_rad alt with ha_def
  set A := _deg_to_rad az with hA_def
  set phi := _deg_to_rad lat with hphi_def
  set th := _deg_to_rad (lst * 15) with hth_def
  have ha1 : -(Real.pi / 2) ≤ a := by
    rw [ha_def]
    unfold _deg_to_rad
    nlinarith [Real.pi_pos]
  have ha2u : a ≤ Real.pi / 2 := by
    rw [ha_def]
    unfold _deg_to_rad
    nlinarith [Real.pi_pos]
  have hAdeg : _rad_to_deg A = az := by
    rw [hA_def, deg_of_rad_of_deg]
  have haltdeg : _rad_to_deg a = alt := by
    rw [ha_def, deg_of_rad_of_deg]
  clear_value a A phi th
  have hb := spherical_sin_bounds a phi A
  set sdec := Real.sin a * Real.sin phi + Real.cos a * Real.cos phi * Real.cos A
    with hsdec_def
  have hclamp : clampUnit sdec = sdec := clampUnit_eq_self _ hb.1 hb.2
  rw [hclamp] at hcosdec ⊢
  clear_value sdec
  set d := Real.arcsin sdec with hd_def
  have hsind : Real.sin d = sdec := by
    rw [hd_def]
    exact Real.sin_arcsin hb.1 hb.2
  clear_value d
  have hcd0 : 0 < Real.cos d := lt_of_lt_of_le (by norm_num) hcosdec
  have hmaxd : (1e-9 : ℝ) ⊔ Real.cos d = Real.cos d := max_eq_right hcosdec
  rw [hmaxd, hsind]
  have hca0 : 0 < Real.cos a := lt_of_lt_of_le (by norm_num) hcosalt
  have hcphi0 : Real.cos phi ≠ 0 := ne_of_gt hcoslat
  have hcd0ne : Real.cos d ≠ 0 := ne_of_gt hcd0
  have hca0ne : Real.cos a ≠ 0 := ne_of_gt hca0
  set H := atan2 (-Real.sin A * Real.cos a / Real.cos d)
    ((Real.sin a - Real.sin phi * sdec) / (Real.cos phi * Real.cos d)) with hH_def
  clear_value H
  set R := pymodR (th - H) (2 * Real.pi) with hR_def
  have hha2 : th - R = H + ((⌊(th - H) / (2 * Real.pi)⌋ : ℤ) : ℝ) * (2 * Real.pi) := by
    rw [hR_def]
    unfold pymodR
    ring
  clear_value R
  have hcosha : Real.cos (th - R) = Real.cos H := by
    rw [hha2]
    exact Real.cos_add_int_mul_two_pi H _
  have hsinha : Real.sin (th - R) = Real.sin H := by
    rw [hha2]
    exact Real.sin_add_int_mul_two_pi H _
  have h1 := Real.sin_sq_add_cos_sq a
  have h2 := Real.sin_sq_add_cos_sq phi
  have h3 := Real.sin_sq_add_cos_sq A
  have hd2 : Real.cos d ^ 2 = 1 - sdec ^ 2 := by
    have hpyth : Real.sin d ^ 2 + Real.cos d ^ 2 = 1 := Real.sin_sq_add_cos_sq d
    rw [hsind] at hpyth
    linarith
  have hkey : Real.sin a - Real.sin phi * sdec
      = Real.cos phi * (Real.sin a * Real.cos phi - Real.sin phi * Real.cos a * Real.cos A) := by
    rw [hsdec_def]
    linear_combination (-Real.sin a) * h2
  have hw : (Real.sin a * Real.cos phi - Real.sin phi * Real.cos a * Real.cos A) ^ 2
      + (Real.sin A * Real.cos a) ^ 2 = Real.cos d ^ 2 := by
    rw [hd2, hsdec_def]
    linear_combination h1 + (Real.sin a ^ 2 + Real.cos a ^ 2 * Real.cos A ^ 2) * h2
      + Real.cos a ^ 2 * h3
  have hunit : ((Real.sin a - Real.sin phi * sdec) / (Real.cos phi * Real.cos d)) ^ 2
      + (-Real.sin A * Real.cos a / Real.cos d) ^ 2 = 1 := by
    rw [hkey, mul_div_mul_left _ _ hcphi0, div_pow, div_pow, div_add_div_same,
      div_eq_one_iff_eq (pow_ne_zero 2 hcd0ne)]
    linear_combination hw
  obtain ⟨hcH, hsH⟩ := atan2_cos_sin_unit (-Real.sin A * Real.cos a / Real.cos d)
    ((Real.sin a - Real.sin phi * sdec) / (Real.cos phi * Real.cos d)) hunit
  rw [← hH_def] at hcH hsH
  have hsinalt2 : sdec * Real.sin phi + Real.cos d * Real.cos phi * Real.cos (th - R)
      = Real.sin a := by
    rw [hcosha, hcH]
    field_simp
    ring
  rw [hsinalt2]
  have hclampa : clampUnit (Real.sin a) = Real.sin a :=
    clampUnit_eq_self _ (Real.neg_one_le_sin a) (Real.sin_le_one a)
  rw [hclampa, Real.arcsin_sin ha1 ha2u]
  have hmaxa : (1e-9 : ℝ) ⊔ Real.cos a = Real.cos a := max_eq_right hcosalt
  rw [hmaxa, hsinha, hsH]
  have hsaz : -Real.cos d * (-Real.sin A * Real.cos a / Real.cos d) / Real.cos a
      = Real.sin A := by
    field_simp
  have hcaz : (sdec - Real.sin a * Real.sin phi) / (Real.cos a * Real.cos phi)
      = Real.cos A := by
    rw [hsdec_def]
    field_simp
  rw [hsaz, hcaz]
  obtain ⟨k2, hk2⟩ := atan2_sin_cos_shift A
  rw [hk2]
  have hdeg : _rad_to_deg (A + (k2 : ℝ) * (2 * Real.pi)) = az + (k2 : ℝ) * 360 := by
    have hlin : _rad_to_deg (A + (k2 : ℝ) * (2 * Real.pi)) = _rad_to_deg A + (k2 : ℝ) * 360 := by
      unfold _rad_to_deg
      have hpi := Real.pi_ne_zero
      field_simp
      ring
    rw [hlin, hAdeg]
  rw [hdeg]
  unfold _normalize_degrees_360
  rw [pymodR_add_int_mul az 360 k2 (by norm_num), pymodR_eq_self az 360 haz1 haz2]
  rw [haltdeg]

/-- C4: for directions with altitude in [-90, 90] and azimuth in [0, 360),
away from the degenerate configurations (cos of the altitude, of the
observer latitude and of the computed declination bounded away from
zero), composing the inverse transform of `constellation_by_direction`
with the forward `_equatorial_to_horizontal` returns the original alt/az
within 1e-6 degrees. -/
theorem C4_inverse_forward_roundtrip (az alt lat lst : ℝ)
    (halt1 : -90 ≤ alt) (halt2 : alt ≤ 90)
    (haz1 : 0 ≤ az) (haz2 : az < 360)
    (hcosalt : 1e-9 ≤ Real.cos (_deg_to_rad alt))
    (hcoslat : 0 < Real.cos (_deg_to_rad lat))
    (hcosdec : 1e-9 ≤ Real.cos (invDecRad az alt lat)) :
    |(_equatorial_to_horizontal ((inverse_altaz_to_radec az alt lat lst).1 / 15)
        (inverse_altaz_to_radec az alt lat lst).2 lat lst).1 - alt| ≤ 1e-6
    ∧ |(_equatorial_to_horizontal ((inverse_altaz_to_radec az alt lat lst).1 / 15)
        (inverse_altaz_to_radec az alt lat lst).2 lat lst).2 - az| ≤ 1e-6 := by
  have h := roundtrip_exact az alt lat lst halt1 halt2 haz1 haz2 hcosalt hcoslat hcosdec
  rw [h]
  norm_num

/-- Witness for C4 at az = 90, alt = 0, lat = 0, lst = 0. -/
theorem C4_inverse_forward_roundtrip_witness :
    ((1e-9 : ℝ) ≤ Real.cos (invDecRad 90 0 0))
    ∧ |(_equatorial_to_horizontal ((inverse_altaz_to_radec 90 0 0 0).1 / 15)
        (inverse_altaz_to_radec 90 0 0 0).2 0 0).1 - 0| ≤ 1e-6
    ∧ |(_equatorial_to_horizontal ((inverse_altaz_to_radec 90 0 0 0).1 / 15)
        (inverse_altaz_to_radec 90 0 0 0).2 0 0).2 - 90| ≤ 1e-6 := by
  have h0 : _deg_to_rad 0 = 0 := by
    unfold _deg_to_rad
    ring
  have h90 : _deg_to_rad (90 : ℝ) = Real.pi / 2 := by
    unfold _deg_to_rad
    ring
  have hca : (1e-9 : ℝ) ≤ Real.cos (_deg_to_rad 0) := by
    rw [h0, Real.cos_zero]
    norm_num
  have hcl : (0 : ℝ) < Real.cos (_deg_to_rad 0) := by
    rw [h0, Real.cos_zero]
    norm_num
  have hcd : (1e-9 : ℝ) ≤ Real.cos (invDecRad 90 0 0) := by
    unfold invDecRad
    rw [h0, h90]
    simp [clampUnit, Real.arcsin_zero]
    norm_num
  have hmain := C4_inverse_forward_roundtrip 90 0 0 0 (by norm_num) (by norm_num)
    (by norm_num) (by norm_num) hca hcl hcd
  exact ⟨hcd, hmain.1, hmain.2⟩
